import Mathlib

/-!
Shallow embedding of the store engine of `passman.py` (a JSON-backed
password store with CRUD, search and statistics operations).

Modelling conventions:
* A Python dict is modelled as an association list `List (String × Record)`
  that preserves insertion order; validated documents have pairwise
  distinct keys, stated as a hypothesis where it matters.
* `sys.exit(msg)` inside an engine operation is modelled by returning the
  error together with the store as it is at the moment of the exit (Python
  mutates the dict in place, so fields assigned before the exit stay
  assigned).  Mutating operations therefore return `Option PMError × Store`:
  `none` in the first component means success.  The error constructors
  follow the error taxonomy of the documentation (ValidationError,
  DuplicateError, NotFoundError).
* The injected clock (`now_iso()`) is an explicit `now : String` argument.
* `str.strip()` / `str.lower()` are `pyStrip` / `pyLower` over the
  character list of the string (ASCII-faithful).
* Python floats produced by `stats` are modelled as exact rationals.
* `validate_store_schema` operates on decoded JSON, modelled by the
  inductive `JValue`; it returns `some errorMessage` where the Python code
  calls `sys.exit(errorMessage)` and `none` where it falls through.
-/

namespace Passman

/-- `s.strip()`: remove leading and trailing whitespace characters. -/
def pyStrip (s : String) : String :=
  ⟨((s.data.dropWhile Char.isWhitespace).reverse.dropWhile Char.isWhitespace).reverse⟩

/-- `s.lower()`: lowercase every character. -/
def pyLower (s : String) : String :=
  ⟨s.data.map Char.toLower⟩

/-- `normalize_site` from passman.py: `s.strip().lower()`. -/
def normalize_site (s : String) : String :=
  pyLower (pyStrip s)

/-- Python substring containment `needle in hay` on character lists. -/
def pyIn : List Char → List Char → Bool
  | n, [] => n.isEmpty
  | n, c :: rest => (List.take n.length (c :: rest) == n) || pyIn n rest

/-- One credential record: `{username, password, last_updated}`. -/
structure Record where
  username : String
  password : String
  last_updated : String
deriving DecidableEq, Repr

/-- The `metadata` object of the store document. -/
structure Metadata where
  version : Int
  created_at : String
  updated_at : String
  count : Int
deriving DecidableEq, Repr

/-- The in-memory store document: metadata plus the entries dict,
modelled as an insertion-ordered association list. -/
structure Store where
  metadata : Metadata
  entries : List (String × Record)
deriving DecidableEq, Repr

/-- `entries.get(k, None)`: first association for the key `k`. -/
def lookupEntry (entries : List (String × Record)) (k : String) : Option Record :=
  (entries.find? (fun p => p.1 == k)).map (fun p => p.2)

/-- `k in entries` membership test of the dict. -/
def containsKey (entries : List (String × Record)) (k : String) : Bool :=
  (lookupEntry entries k).isSome

/-- `entries[k] = f(entries[k])`-style in-place mutation of the record at
key `k` (keys are unique in a dict, so mapping over all pairs is faithful). -/
def modifyEntry (entries : List (String × Record)) (k : String) (f : Record → Record) :
    List (String × Record) :=
  entries.map (fun p => if p.1 = k then (p.1, f p.2) else p)

/-- `del entries[k]`. -/
def eraseEntry (entries : List (String × Record)) (k : String) : List (String × Record) :=
  entries.filter (fun p => !(p.1 == k))

/-- Error taxonomy of the engine, with the `sys.exit` message. -/
inductive PMError where
  | validationError (msg : String)
  | duplicateError (msg : String)
  | notFoundError (msg : String)
deriving DecidableEq, Repr

/-- `add_entry(store, site, username, password)` from passman.py. -/
def add_entry (store : Store) (site : Option String) (username password : String)
    (now : String) : Option PMError × Store :=
  match site with
  | none => (some (.validationError "add: site is required."), store)
  | some s =>
    let site_key := normalize_site s
    if username = "" ∨ password = "" then
      (some (.validationError "add: username and password cannot be empty."), store)
    else if containsKey store.entries site_key then
      (some (.duplicateError ("add: entry for " ++ site_key ++ " already exists. Use update instead.")), store)
    else
      let entries := store.entries ++ [(site_key, ⟨username, password, now⟩)]
      (none, ⟨{ store.metadata with count := (entries.length : Int), updated_at := now }, entries⟩)

/-- `get_entry(store, site)` from passman.py: `None` site exits, otherwise
the record under the normalized key or `none`. -/
def get_entry (store : Store) (site : Option String) : Except PMError (Option Record) :=
  match site with
  | none => .error (.validationError "get: site is required.")
  | some s => .ok (lookupEntry store.entries (normalize_site s))

/-- Tail of `update_entry` after the username block: the password block,
then the timestamp updates. -/
def update_apply_password (store : Store) (site_key : String) (password : Option String)
    (now : String) : Option PMError × Store :=
  match password with
  | none =>
    (none, ⟨{ store.metadata with updated_at := now },
      modifyEntry store.entries site_key (fun r => { r with last_updated := now })⟩)
  | some p =>
    if p = "" then
      (some (.validationError "update: password cannot be empty."), store)
    else
      let entries := modifyEntry store.entries site_key (fun r => { r with password := p })
      (none, ⟨{ store.metadata with updated_at := now },
        modifyEntry entries site_key (fun r => { r with last_updated := now })⟩)

/-- `update_entry(store, site, username, password)` from passman.py.
The username assignment happens before the password emptiness check, so an
exit on an empty password leaves an already-applied username in the store. -/
def update_entry (store : Store) (site username password : Option String)
    (now : String) : Option PMError × Store :=
  match site with
  | none => (some (.validationError "update: site is required."), store)
  | some s =>
    if username = none ∧ password = none then
      (some (.validationError "update: nothing to update (provide --username and/or --password)."), store)
    else
      let site_key := normalize_site s
      if containsKey store.entries site_key then
        match username with
        | none => update_apply_password store site_key password now
        | some u =>
          if u = "" then
            (some (.validationError "update: username cannot be empty."), store)
          else
            update_apply_password
              { store with entries := modifyEntry store.entries site_key (fun r => { r with username := u }) }
              site_key password now
      else
        (some (.notFoundError ("update: no entry found for " ++ site_key ++ ".")), store)

/-- `delete_entry(store, site)` from passman.py. -/
def delete_entry (store : Store) (site : Option String) (now : String) :
    Option PMError × Store :=
  match site with
  | none => (some (.validationError "delete: site is required."), store)
  | some s =>
    let site_key := normalize_site s
    if containsKey store.entries site_key then
      let entries := eraseEntry store.entries site_key
      (none, ⟨{ store.metadata with count := (entries.length : Int), updated_at := now }, entries⟩)
    else
      (some (.notFoundError ("delete: no entry found for " ++ site_key ++ ".")), store)

/-- `search_entries(store, keyword)` from passman.py: case-insensitive
substring match of the keyword against site key and username, results
sorted. -/
def search_entries (store : Store) (keyword : Option String) : List String :=
  match keyword with
  | none => []
  | some kw =>
    if kw = "" then []
    else
      let k := pyLower kw
      let hits := (store.entries.filter
        (fun p => pyIn k.data (pyLower p.1).data || pyIn k.data (pyLower p.2.username).data)).map
          Prod.fst
      List.insertionSort (fun a b => a ≤ b) hits

/-- Result record of `stats`. -/
structure StatsResult where
  count : Nat
  oldest : Option String
  newest : Option String
  avg_password_length : ℚ
deriving DecidableEq, Repr

/-- Python `min` over a list (leftmost-first fold); `none` on the empty
list, which `stats` never reaches. -/
def listMin : List String → Option String
  | [] => none
  | a :: as => some (as.foldl min a)

/-- Python `max` over a list; `none` on the empty list. -/
def listMax : List String → Option String
  | [] => none
  | a :: as => some (as.foldl max a)

/-- `stats(store)` from passman.py. -/
def stats (store : Store) : StatsResult :=
  if store.entries.length = 0 then
    ⟨0, none, none, 0⟩
  else
    let times : List String := store.entries.map (fun p => p.2.last_updated)
    let pw_lengths : List Nat := store.entries.map (fun p => p.2.password.length)
    ⟨store.entries.length, listMin times, listMax times,
      ((pw_lengths.sum : Nat) : ℚ) / ((pw_lengths.length : Nat) : ℚ)⟩

/-- A decoded JSON value, the input type of schema validation. -/
inductive JValue where
  | jnull
  | jbool (b : Bool)
  | jint (n : Int)
  | jstr (s : String)
  | jarr (elems : List JValue)
  | jobj (fields : List (String × JValue))

/-- Field lookup in a JSON object (Python dict access). -/
def jGet (fields : List (String × JValue)) (k : String) : Option JValue :=
  (fields.find? (fun p => p.1 == k)).map (fun p => p.2)

/-- Check one required metadata field of integer type (presence, then type). -/
def checkMetaInt (metaF : List (String × JValue)) (key : String) : Option String :=
  match jGet metaF key with
  | none => some ("Invalid store schema: metadata missing " ++ key ++ ".")
  | some (.jint _) => none
  | some _ => some ("Invalid store schema: metadata " ++ key ++ " must be int.")

/-- Check one required metadata field of string type (presence, then type). -/
def checkMetaStr (metaF : List (String × JValue)) (key : String) : Option String :=
  match jGet metaF key with
  | none => some ("Invalid store schema: metadata missing " ++ key ++ ".")
  | some (.jstr _) => none
  | some _ => some ("Invalid store schema: metadata " ++ key ++ " must be str.")

/-- Check one required record field of string type for the entry `site`. -/
def checkRecField (site : String) (recF : List (String × JValue)) (key : String) :
    Option String :=
  match jGet recF key with
  | none => some ("Invalid store schema: entry " ++ site ++ " missing " ++ key ++ ".")
  | some (.jstr _) => none
  | some _ => some ("Invalid store schema: " ++ site ++ "." ++ key ++ " must be str.")

/-- The per-entry loop of `validate_store_schema`: each entry value must be
an object with string fields `username`, `password`, `last_updated`.
(Keys of a `jobj` are strings by construction, so the Python `isinstance`
check on site keys can never fire.) -/
def checkEntries : List (String × JValue) → Option String
  | [] => none
  | (site, rec) :: rest =>
    match rec with
    | .jobj recF =>
      (checkRecField site recF "username") <|>
      (checkRecField site recF "password") <|>
      (checkRecField site recF "last_updated") <|>
      checkEntries rest
    | _ => some ("Invalid store schema: entry for " ++ site ++ " is not an object.")

/-- `validate_store_schema(store)` from passman.py, returning the
`sys.exit` message of the first failing check, or `none` when the document
is accepted. -/
def validate_store_schema (store : JValue) : Option String :=
  match store with
  | .jobj fields =>
    match jGet fields "metadata", jGet fields "entries" with
    | some (.jobj metaF), some (.jobj entF) =>
      (checkMetaInt metaF "version") <|>
      (checkMetaStr metaF "created_at") <|>
      (checkMetaStr metaF "updated_at") <|>
      (checkMetaInt metaF "count") <|>
      checkEntries entF <|>
      (match jGet metaF "count" with
       | some (.jint n) =>
         if n = (entF.length : Int) then none
         else some "Invalid store schema: metadata.count does not match number of entries."
       | _ => none)
    | some _, some _ => some "Invalid store schema: metadata or entries is not an object."
    | _, _ => some "Invalid store schema: missing metadata or entries."
  | _ => some "Invalid store schema: top-level is not an object."

/-- JSON encoding of a record, as written by `json.dump`. -/
def recordToJValue (r : Record) : JValue :=
  .jobj [("username", .jstr r.username), ("password", .jstr r.password),
         ("last_updated", .jstr r.last_updated)]

/-- JSON encoding of a whole store document, as written by `json.dump`. -/
def storeToJValue (s : Store) : JValue :=
  .jobj [("metadata", .jobj [("version", .jint s.metadata.version),
                             ("created_at", .jstr s.metadata.created_at),
                             ("updated_at", .jstr s.metadata.updated_at),
                             ("count", .jint s.metadata.count)]),
         ("entries", .jobj (s.entries.map (fun p => (p.1, recordToJValue p.2))))]

/-- One mutating engine invocation with its clock value. -/
inductive Op where
  | addOp (site : Option String) (username password : String) (now : String)
  | updateOp (site username password : Option String) (now : String)
  | deleteOp (site : Option String) (now : String)
deriving DecidableEq, Repr

/-- Dispatch one operation to the engine. -/
def applyOp (s : Store) : Op → Option PMError × Store
  | .addOp site u p now => add_entry s site u p now
  | .updateOp site u p now => update_entry s site u p now
  | .deleteOp site now => delete_entry s site now

/-- Run a sequence of operations, requiring every one of them to succeed. -/
def runOps : Store → List Op → Option Store
  | s, [] => some s
  | s, op :: ops =>
    match applyOp s op with
    | (none, s') => runOps s' ops
    | (some _, _) => none

/-- The count invariant of the document: `metadata.count == len(entries)`. -/
def countOk (s : Store) : Bool :=
  s.metadata.count == (s.entries.length : Int)

/-- Whether an operation is an add or a delete. -/
def isAddDelete : Op → Bool
  | .addOp _ _ _ _ => true
  | .updateOp _ _ _ _ => false
  | .deleteOp _ _ => true

/-- An empty store as produced by `init_store` (clock fixed at "t0"). -/
def exStore0 : Store := ⟨⟨1, "t0", "t0", 0⟩, []⟩

/-- A store holding one record under the key "s.com". -/
def exStore1 : Store := ⟨⟨1, "t0", "t0", 1⟩, [("s.com", ⟨"u1", "p1", "t0"⟩)]⟩

/-- The two-entry store of the search example in the documentation. -/
def exStore2 : Store :=
  ⟨⟨1, "t0", "t0", 2⟩, [("github.com", ⟨"al", "p", "t1"⟩), ("gitlab.com", ⟨"bob", "pw", "t2"⟩)]⟩

/-- A store whose single record has an empty username and password. -/
def exStoreEmptyU : Store := ⟨⟨1, "t0", "t0", 1⟩, [("s.com", ⟨"", "", "t0"⟩)]⟩

/-- A decoded document that is structurally well typed, has a consistent
count, but contains an empty-string username. -/
def exBadDoc : JValue :=
  .jobj [("metadata", .jobj [("version", .jint 1), ("created_at", .jstr "t0"),
                             ("updated_at", .jstr "t0"), ("count", .jint 1)]),
         ("entries", .jobj [("s.com", .jobj [("username", .jstr ""), ("password", .jstr "p"),
                                             ("last_updated", .jstr "t0")])])]

/-- A concrete add/add/delete sequence of successful operations. -/
def exOpsC1 : List Op :=
  [.addOp (some "A.com") "u" "p" "t1", .addOp (some "b.com") "u" "p" "t2",
   .deleteOp (some "a.com") "t3"]

/-- The store reached by running `exOpsC1` from `exStore0`. -/
def exStoreC1 : Store := ⟨⟨1, "t0", "t3", 1⟩, [("b.com", ⟨"u", "p", "t2"⟩)]⟩

/-! ### Helper lemmas about the association-list dict operations -/

theorem lookupEntry_cons (a : String × Record) (rest : List (String × Record)) (k : String) :
    lookupEntry (a :: rest) k =
      if a.1 = k then some a.2 else lookupEntry rest k := by
  by_cases hak : a.1 = k
  · rw [if_pos hak]
    unfold lookupEntry
    rw [List.find?_cons_of_pos _ (by simpa using hak)]
    rfl
  · rw [if_neg hak]
    unfold lookupEntry
    rw [List.find?_cons_of_neg _ (by simpa using hak)]

theorem modifyEntry_cons (a : String × Record) (rest : List (String × Record)) (k : String)
    (f : Record → Record) :
    modifyEntry (a :: rest) k f =
      (if a.1 = k then (a.1, f a.2) else a) :: modifyEntry rest k f := rfl

theorem lookupEntry_append_self (entries : List (String × Record)) (k : String) (r : Record)
    (h : containsKey entries k = false) :
    lookupEntry (entries ++ [(k, r)]) k = some r := by
  induction entries with
  | nil => simp [lookupEntry, List.find?]
  | cons a rest ih =>
    rw [List.cons_append, lookupEntry_cons]
    rw [containsKey] at h
    rw [lookupEntry_cons] at h
    by_cases hak : a.1 = k
    · rw [if_pos hak] at h; simp at h
    · rw [if_neg hak] at h
      rw [if_neg hak]
      exact ih h

theorem lookupEntry_modifyEntry_self (entries : List (String × Record)) (k : String)
    (f : Record → Record) :
    lookupEntry (modifyEntry entries k f) k = (lookupEntry entries k).map f := by
  induction entries with
  | nil => rfl
  | cons a rest ih =>
    rw [modifyEntry_cons, lookupEntry_cons, lookupEntry_cons]
    by_cases hak : a.1 = k
    · rw [if_pos hak, if_pos hak]
      simp [hak]
    · rw [if_neg hak, if_neg hak, if_neg hak]
      exact ih

theorem lookupEntry_modifyEntry_ne (entries : List (String × Record)) (k k' : String)
    (f : Record → Record) (h : k' ≠ k) :
    lookupEntry (modifyEntry entries k f) k' = lookupEntry entries k' := by
  induction entries with
  | nil => rfl
  | cons a rest ih =>
    rw [modifyEntry_cons, lookupEntry_cons, lookupEntry_cons]
    by_cases hak : a.1 = k
    · have hak' : ¬ a.1 = k' := fun he => h (he ▸ hak ▸ rfl)
      rw [if_pos hak]
      have : ((a.1, f a.2) : String × Record).1 = a.1 := rfl
      rw [if_neg (by rw [this]; exact hak'), if_neg hak']
      exact ih
    · by_cases hak' : a.1 = k'
      · rw [if_neg hak, if_pos hak', if_pos hak']
      · rw [if_neg hak, if_neg hak', if_neg hak']
        exact ih

/-! ### Helper lemmas about substring containment -/

theorem pyIn_eq_true_iff (n : List Char) (h : List Char) :
    pyIn n h = true ↔ n <:+: h := by
  induction h with
  | nil => simp [pyIn, List.isEmpty_iff, List.infix_nil]
  | cons c rest ih =>
    simp only [pyIn, Bool.or_eq_true, beq_iff_eq, ih, List.infix_cons_iff,
      List.prefix_iff_eq_take]
    constructor
    · rintro (h1 | h2)
      · exact Or.inl h1.symm
      · exact Or.inr h2
    · rintro (h1 | h2)
      · exact Or.inl h1.symm
      · exact Or.inr h2

/-! ### Helper lemmas about Python min/max folds -/

theorem foldl_min_mem (l : List String) : ∀ a : String, l.foldl min a ∈ a :: l := by
  induction l with
  | nil => intro a; simp [List.foldl]
  | cons b bs ih =>
    intro a
    rw [List.foldl_cons]
    rcases List.mem_cons.mp (ih (min a b)) with hmem | hmem
    · rcases le_total a b with hab | hab
      · rw [hmem, min_eq_left hab]; exact List.mem_cons_self _ _
      · rw [hmem, min_eq_right hab]
        exact List.mem_cons.mpr (Or.inr (List.mem_cons_self _ _))
    · exact List.mem_cons.mpr (Or.inr (List.mem_cons.mpr (Or.inr hmem)))

theorem foldl_min_le (l : List String) :
    ∀ a : String, ∀ x ∈ a :: l, l.foldl min a ≤ x := by
  induction l with
  | nil =>
    intro a x hx
    have hxa : x = a := by simpa using hx
    simp [hxa]
  | cons b bs ih =>
    intro a x hx
    rw [List.foldl_cons]
    have hhead : bs.foldl min (min a b) ≤ min a b :=
      ih (min a b) (min a b) (List.mem_cons_self _ _)
    rcases List.mem_cons.mp hx with hx | hx
    · rw [hx]; exact le_trans hhead (min_le_left a b)
    rcases List.mem_cons.mp hx with hx | hx
    · rw [hx]; exact le_trans hhead (min_le_right a b)
    · exact ih (min a b) x (List.mem_cons.mpr (Or.inr hx))

theorem foldl_max_mem (l : List String) : ∀ a : String, l.foldl max a ∈ a :: l := by
  induction l with
  | nil => intro a; simp [List.foldl]
  | cons b bs ih =>
    intro a
    rw [List.foldl_cons]
    rcases List.mem_cons.mp (ih (max a b)) with hmem | hmem
    · rcases le_total a b with hab | hab
      · rw [hmem, max_eq_right hab]
        exact List.mem_cons.mpr (Or.inr (List.mem_cons_self _ _))
      · rw [hmem, max_eq_left hab]; exact List.mem_cons_self _ _
    · exact List.mem_cons.mpr (Or.inr (List.mem_cons.mpr (Or.inr hmem)))

theorem le_foldl_max (l : List String) :
    ∀ a : String, ∀ x ∈ a :: l, x ≤ l.foldl max a := by
  induction l with
  | nil =>
    intro a x hx
    have hxa : x = a := by simpa using hx
    simp [hxa]
  | cons b bs ih =>
    intro a x hx
    rw [List.foldl_cons]
    have hhead : max a b ≤ bs.foldl max (max a b) :=
      ih (max a b) (max a b) (List.mem_cons_self _ _)
    rcases List.mem_cons.mp hx with hx | hx
    · rw [hx]; exact le_trans (le_max_left a b) hhead
    rcases List.mem_cons.mp hx with hx | hx
    · rw [hx]; exact le_trans (le_max_right a b) hhead
    · exact ih (max a b) x (List.mem_cons.mpr (Or.inr hx))

/-! ### Behavior lemmas about the engine operations -/

theorem add_entry_fail_unchanged (t : Store) (site : Option String) (u p n : String)
    (h : (add_entry t site u p n).1.isSome = true) : (add_entry t site u p n).2 = t := by
  cases site with
  | none => rfl
  | some s =>
    by_cases h1 : u = "" ∨ p = ""
    · simp [add_entry, h1]
    · by_cases h2 : containsKey t.entries (normalize_site s) = true
      · simp [add_entry, h1, h2]
      · simp [add_entry, h1, h2] at h

theorem delete_entry_fail_unchanged (t : Store) (site : Option String) (n : String)
    (h : (delete_entry t site n).1.isSome = true) : (delete_entry t site n).2 = t := by
  cases site with
  | none => rfl
  | some s =>
    by_cases h2 : containsKey t.entries (normalize_site s) = true
    · simp [delete_entry, h2] at h
    · simp [delete_entry, h2]

theorem add_entry_countOk (t : Store) (site : Option String) (u p n : String)
    (h : (add_entry t site u p n).1 = none) : countOk (add_entry t site u p n).2 = true := by
  cases site with
  | none => simp [add_entry] at h
  | some s =>
    by_cases h1 : u = "" ∨ p = ""
    · simp [add_entry, h1] at h
    · by_cases h2 : containsKey t.entries (normalize_site s) = true
      · simp [add_entry, h1, h2] at h
      · simp [add_entry, h1, h2, countOk]

theorem delete_entry_countOk (t : Store) (site : Option String) (n : String)
    (h : (delete_entry t site n).1 = none) : countOk (delete_entry t site n).2 = true := by
  cases site with
  | none => simp [delete_entry] at h
  | some s =>
    by_cases h2 : containsKey t.entries (normalize_site s) = true
    · simp [delete_entry, h2, countOk]
    · simp [delete_entry, h2] at h

theorem update_apply_password_count (st : Store) (key : String) (pw : Option String)
    (n : String) : (update_apply_password st key pw n).2.metadata.count = st.metadata.count := by
  cases pw with
  | none => rfl
  | some p =>
    by_cases hp : p = ""
    · simp [update_apply_password, hp]
    · simp [update_apply_password, hp]

theorem update_entry_count (t : Store) (site u p : Option String) (n : String) :
    (update_entry t site u p n).2.metadata.count = t.metadata.count := by
  cases site with
  | none => rfl
  | some s =>
    by_cases hnn : u = none ∧ p = none
    · simp [update_entry, hnn]
    · by_cases hk : containsKey t.entries (normalize_site s) = true
      · cases u with
        | none =>
          cases p with
          | none => exact absurd ⟨rfl, rfl⟩ hnn
          | some pp =>
            simpa [update_entry, hk] using
              update_apply_password_count t (normalize_site s) (some pp) n
        | some uu =>
          by_cases huu : uu = ""
          · simp [update_entry, hk, huu]
          · simpa [update_entry, hk, huu] using
              update_apply_password_count { t with entries := modifyEntry t.entries (normalize_site s) (fun r => { r with username := uu }) } (normalize_site s) p n
      · cases u with
        | none =>
          cases p with
          | none => exact absurd ⟨rfl, rfl⟩ hnn
          | some pp => simp [update_entry, hk]
        | some uu => simp [update_entry, hk]

theorem normalize_site_eq_empty_of_whitespace (S : String)
    (h : ∀ c ∈ S.data, c.isWhitespace = true) : normalize_site S = "" := by
  have h1 : S.data.dropWhile Char.isWhitespace = [] := List.dropWhile_eq_nil_iff.mpr h
  unfold normalize_site pyStrip
  rw [h1]
  rfl

theorem checkEntries_map (l : List (String × Record)) :
    checkEntries (l.map (fun p => (p.1, recordToJValue p.2))) = none := by
  induction l with
  | nil => rfl
  | cons a rest ih => exact ih

theorem runOps_countOk : ∀ (ops : List Op) (store s' : Store),
    (∀ op ∈ ops, isAddDelete op = true) → countOk store = true →
    runOps store ops = some s' → countOk s' = true := by
  intro ops
  induction ops with
  | nil =>
    intro store s' _ h0 hrun
    have h : store = s' := by simpa [runOps] using hrun
    exact h ▸ h0
  | cons op rest ih =>
    intro store s' hops h0 hrun
    rw [runOps] at hrun
    rcases hap : applyOp store op with ⟨e, s2⟩
    rw [hap] at hrun
    cases e with
    | some err => exact absurd (show (none : Option Store) = some s' from hrun) (by simp)
    | none =>
      have hrun2 : runOps s2 rest = some s' := hrun
      have hs2 : countOk s2 = true := by
        have hod := hops op (List.mem_cons_self _ _)
        cases op with
        | addOp site u p n =>
          have heq : add_entry store site u p n = (none, s2) := hap
          have h1 : (add_entry store site u p n).1 = none := by rw [heq]
          have h2 : (add_entry store site u p n).2 = s2 := by rw [heq]
          exact h2 ▸ add_entry_countOk store site u p n h1
        | updateOp site u p n => simp [isAddDelete] at hod
        | deleteOp site n =>
          have heq : delete_entry store site n = (none, s2) := hap
          have h1 : (delete_entry store site n).1 = none := by rw [heq]
          have h2 : (delete_entry store site n).2 = s2 := by rw [heq]
          exact h2 ▸ delete_entry_countOk store site n h1
      exact ih s2 s' (fun o ho => hops o (List.mem_cons.mpr (Or.inr ho))) hs2 hrun2

/-! ### Claim theorems -/

/-- Claim C1: for every sequence of successful add and delete operations
starting from a document that satisfies the count invariant,
`metadata.count` equals the number of entries in the entries map after the
sequence (hence after each operation, every prefix being such a sequence),
and `update_entry` never changes `metadata.count`. -/
theorem count_invariant_add_delete (store : Store) (ops : List Op) (s' : Store)
    (hops : ∀ op ∈ ops, isAddDelete op = true) (h0 : countOk store = true)
    (hrun : runOps store ops = some s') :
    countOk s' = true ∧
    (∀ (t : Store) (site u p : Option String) (n : String),
      (update_entry t site u p n).2.metadata.count = t.metadata.count) :=
  ⟨runOps_countOk ops store s' hops h0 hrun,
   fun t site u p n => update_entry_count t site u p n⟩

/-- Witness for C1: a concrete add/add/delete run from the empty store. -/
theorem count_invariant_add_delete_witness : countOk exStoreC1 = true :=
  (count_invariant_add_delete exStore0 exOpsC1 exStoreC1 (by decide) (by decide)
    (by decide)).1

/-- Counterexample to claim C2 as stated: on a store containing the key
"s.com", `update("s.com", username="u2", password="")` fails, yet the
document after the failed call is not the document from before it (the
username was already overwritten when the empty password was detected). -/
theorem update_failed_but_mutated :
    ((update_entry exStore1 (some "s.com") (some "u2") (some "") "t9").1.isSome = true) ∧
    (update_entry exStore1 (some "s.com") (some "u2") (some "") "t9").2 ≠ exStore1 ∧
    lookupEntry (update_entry exStore1 (some "s.com") (some "u2") (some "") "t9").2.entries
      "s.com" = some ⟨"u2", "p1", "t0"⟩ := by
  refine ⟨rfl, ?_, rfl⟩
  decide

/-- Claim C2 (amended): a failing `add_entry` or `delete_entry` returns the
document unchanged, but a failing `update_entry` can be partial: for every
store containing key S, `update(S, username=U, password="")` with non-empty
U fails with the empty-password validation error after the username has
already been applied — the resulting document carries the new username
while password and `last_updated` of the record are unchanged. -/
theorem failing_mutation_document_state (store : Store) (S U now : String) (r : Record)
    (hfound : lookupEntry store.entries (normalize_site S) = some r)
    (hU : U ≠ "") :
    (update_entry store (some S) (some U) (some "") now).1 =
      some (.validationError "update: password cannot be empty.") ∧
    (update_entry store (some S) (some U) (some "") now).2 =
      { store with entries := modifyEntry store.entries (normalize_site S) (fun x => { x with username := U }) } ∧
    lookupEntry (update_entry store (some S) (some U) (some "") now).2.entries
      (normalize_site S) = some ⟨U, r.password, r.last_updated⟩ ∧
    (∀ (t : Store) (site : Option String) (u p n : String),
      (add_entry t site u p n).1.isSome = true → (add_entry t site u p n).2 = t) ∧
    (∀ (t : Store) (site : Option String) (n : String),
      (delete_entry t site n).1.isSome = true → (delete_entry t site n).2 = t) := by
  have hk : containsKey store.entries (normalize_site S) = true := by
    show (lookupEntry store.entries (normalize_site S)).isSome = true
    rw [hfound]; rfl
  have hres : update_entry store (some S) (some U) (some "") now =
      (some (.validationError "update: password cannot be empty."),
       { store with entries := modifyEntry store.entries (normalize_site S) (fun x => { x with username := U }) }) := by
    simp only [update_entry, update_apply_password]
    rw [if_neg (show ¬((some U : Option String) = none ∧ (some "" : Option String) = none)
      by simp)]
    rw [if_pos hk, if_neg hU]
    simp
  refine ⟨by rw [hres], by rw [hres], ?_,
    fun t site u p n h => add_entry_fail_unchanged t site u p n h,
    fun t site n h => delete_entry_fail_unchanged t site n h⟩
  rw [hres]
  show lookupEntry (modifyEntry store.entries (normalize_site S)
    (fun x => { x with username := U })) (normalize_site S) = _
  rw [lookupEntry_modifyEntry_self, hfound]
  rfl

/-- Witness for C2 (amended) at a concrete store and inputs. -/
theorem failing_mutation_document_state_witness :
    (update_entry exStore1 (some "s.com") (some "u9") (some "") "t9").2 =
      { exStore1 with entries := modifyEntry exStore1.entries (normalize_site "s.com") (fun x => { x with username := "u9" }) } :=
  (failing_mutation_document_state exStore1 "s.com" "u9" "t9" ⟨"u1", "p1", "t0"⟩
    (by decide) (by decide)).2.1

/-- Counterexample to claim C3 as stated: `get` with the empty-string site
does not fail — it returns the explicit not-found result. -/
theorem get_empty_site_is_not_error :
    get_entry exStore1 (some "") = Except.ok none := rfl

/-- Claim C3 (amended): `get_entry` fails with a ValidationError iff the
site is absent (None); for every provided site, including the empty
string, it returns the record stored under the normalized key, or an
explicit not-found result (`none`) exactly when the key is absent. -/
theorem get_entry_contract (store : Store) (site : Option String) :
    ((∃ e, get_entry store site = Except.error e) ↔ site = none) ∧
    (site = none → get_entry store site =
      Except.error (.validationError "get: site is required.")) ∧
    (∀ s, site = some s →
      get_entry store site = Except.ok (lookupEntry store.entries (normalize_site s)) ∧
      (get_entry store site = Except.ok none ↔
        containsKey store.entries (normalize_site s) = false)) := by
  cases site with
  | none =>
    refine ⟨?_, ?_, ?_⟩
    · constructor
      · intro _; rfl
      · intro _; exact ⟨.validationError "get: site is required.", rfl⟩
    · intro _; rfl
    · intro s hs; exact absurd hs (by simp)
  | some s0 =>
    have hdef : get_entry store (some s0) =
        Except.ok (lookupEntry store.entries (normalize_site s0)) := rfl
    refine ⟨?_, ?_, ?_⟩
    · constructor
      · rintro ⟨e, he⟩
        rw [hdef] at he
        cases he
      · intro h; exact absurd h (by simp)
    · intro h; exact absurd h (by simp)
    · intro s hs
      injection hs with h
      subst h
      refine ⟨rfl, ?_⟩
      rw [hdef]
      constructor
      · intro h
        have hinj : lookupEntry store.entries (normalize_site s0) = none := by
          injection h
        show (lookupEntry store.entries (normalize_site s0)).isSome = false
        rw [hinj]; rfl
      · intro h
        cases hl : lookupEntry store.entries (normalize_site s0) with
        | none => rfl
        | some v =>
          have ht : containsKey store.entries (normalize_site s0) = true := by
            show (lookupEntry store.entries (normalize_site s0)).isSome = true
            rw [hl]; rfl
          rw [ht] at h; cases h

/-- Witness for C3 (amended): a key that is absent yields the not-found
result. -/
theorem get_entry_contract_witness :
    get_entry exStore1 (some "absent.com") = Except.ok none := by
  have h := ((get_entry_contract exStore1 (some "absent.com")).2.2 "absent.com" rfl).2
  exact h.mpr (by decide)

/-- Counterexample to claim C4 as stated: a structurally well-typed
document whose single record has an empty-string username is accepted by
`validate_store_schema` (no error is produced), although the claim says it
must be rejected with a SchemaError. -/
theorem validate_accepts_empty_username_doc :
    validate_store_schema exBadDoc = none := rfl

/-- Claim C4 (amended): load-time validation checks structure, presence and
types of all fields and the count consistency, but does not check
non-emptiness of `username`/`password`: every well-typed document whose
`metadata.count` matches the number of entries is accepted, including
documents with empty-string usernames or passwords. -/
theorem validate_accepts_wellTyped_count (store : Store)
    (hcount : store.metadata.count = (store.entries.length : Int)) :
    validate_store_schema (storeToJValue store) = none := by
  have key : validate_store_schema (storeToJValue store) =
      (checkEntries (store.entries.map (fun p => (p.1, recordToJValue p.2))) <|>
        (if store.metadata.count =
            ((store.entries.map (fun p => (p.1, recordToJValue p.2))).length : Int) then none
         else some "Invalid store schema: metadata.count does not match number of entries.")) :=
    rfl
  rw [key, checkEntries_map, Option.none_orElse, if_pos]
  rw [List.length_map]
  exact hcount

/-- Witness for C4 (amended): the encoded form of a store whose record has
empty username and password is accepted. -/
theorem validate_accepts_wellTyped_count_witness :
    validate_store_schema (storeToJValue exStoreEmptyU) = none :=
  validate_accepts_wellTyped_count exStoreEmptyU (by decide)

/-- Counterexample to claim C5 as stated: on a store already containing
the key "s.com", `add("s.com", "", "p2")` fails — but with a
ValidationError about empty credentials, not with a DuplicateError, since
the emptiness check precedes the duplicate check. -/
theorem add_duplicate_with_empty_username_is_validation_error :
    (add_entry exStore1 (some "s.com") "" "p2" "t9").1 =
      some (.validationError "add: username and password cannot be empty.") := rfl

/-- Claim C5 (amended): for every store whose entries contain the
normalized key of S, `add(S, u2, p2)` fails and leaves the store (entries
and metadata) unchanged; the failure is a DuplicateError when u2 and p2
are non-empty, and a ValidationError when u2 or p2 is empty (that check
comes first).  Add never overwrites. -/
theorem add_duplicate_rejected_store_unchanged (store : Store) (S u2 p2 now : String)
    (hdup : containsKey store.entries (normalize_site S) = true) :
    (add_entry store (some S) u2 p2 now).2 = store ∧
    (u2 ≠ "" → p2 ≠ "" → (add_entry store (some S) u2 p2 now).1 =
      some (.duplicateError
        ("add: entry for " ++ normalize_site S ++ " already exists. Use update instead."))) ∧
    ((u2 = "" ∨ p2 = "") → (add_entry store (some S) u2 p2 now).1 =
      some (.validationError "add: username and password cannot be empty.")) := by
  refine ⟨?_, ?_, ?_⟩
  · by_cases hep : u2 = "" ∨ p2 = ""
    · simp [add_entry, hep]
    · simp [add_entry, hep, hdup]
  · intro hu2 hp2
    have hep : ¬(u2 = "" ∨ p2 = "") := by simp [hu2, hp2]
    simp [add_entry, hep, hdup]
  · intro hor
    simp [add_entry, hor]

/-- Witness for C5 (amended): a duplicate add with non-empty credentials
fails with the DuplicateError and leaves the store unchanged. -/
theorem add_duplicate_rejected_store_unchanged_witness :
    (add_entry exStore1 (some "s.com") "u2" "p2" "t9").2 = exStore1 :=
  (add_duplicate_rejected_store_unchanged exStore1 "s.com" "u2" "p2" "t9" (by decide)).1

/-- Claim C6: add/get round trip through normalization — after a
successful `add(S, u, p)` on a store not containing the normalized key of
S, `get(S')` returns the record with username u and password p for every
S' normalizing to the same key as S. -/
theorem add_get_round_trip (store : Store) (S S' u p now : String)
    (habsent : containsKey store.entries (normalize_site S) = false)
    (hu : u ≠ "") (hp : p ≠ "")
    (hS' : normalize_site S' = normalize_site S) :
    (add_entry store (some S) u p now).1 = none ∧
    get_entry (add_entry store (some S) u p now).2 (some S') =
      Except.ok (some ⟨u, p, now⟩) := by
  have hep : ¬(u = "" ∨ p = "") := by simp [hu, hp]
  have hkf : ¬(containsKey store.entries (normalize_site S) = true) := by
    rw [habsent]; simp
  have hres : add_entry store (some S) u p now =
      (none, ⟨{ store.metadata with count := ((store.entries ++ [(normalize_site S, Record.mk u p now)]).length : Int), updated_at := now }, store.entries ++ [(normalize_site S, Record.mk u p now)]⟩) := by
    simp only [add_entry]
    rw [if_neg hep, if_neg hkf]
  refine ⟨by rw [hres], ?_⟩
  rw [hres]
  show Except.ok (lookupEntry (store.entries ++ [(normalize_site S, Record.mk u p now)])
    (normalize_site S')) = Except.ok (some ⟨u, p, now⟩)
  rw [hS', lookupEntry_append_self _ _ _ habsent]

/-- Witness for C6: the round-trip example of the documentation, with the
clock fixed at "t1". -/
theorem add_get_round_trip_witness :
    get_entry (add_entry exStore0 (some "Example.com") "alice" "secret" "t1").2
      (some "  EXAMPLE.COM ") = Except.ok (some ⟨"alice", "secret", "t1"⟩) :=
  (add_get_round_trip exStore0 "Example.com" "  EXAMPLE.COM " "alice" "secret" "t1"
    (by decide) (by decide) (by decide) (by decide)).2

/-- Claim C7: frame property of a partial update — a successful
`update(S, username=U)` with non-empty U changes only the username and
`last_updated` of the record for S and the global `metadata.updated_at`;
the record's password, every other entry, `metadata.count`,
`metadata.version` and `metadata.created_at` are unchanged. -/
theorem update_username_frame (store : Store) (S U now : String) (r : Record)
    (hfound : lookupEntry store.entries (normalize_site S) = some r)
    (hU : U ≠ "") :
    (update_entry store (some S) (some U) none now).1 = none ∧
    lookupEntry (update_entry store (some S) (some U) none now).2.entries
      (normalize_site S) = some ⟨U, r.password, now⟩ ∧
    (∀ k, k ≠ normalize_site S →
      lookupEntry (update_entry store (some S) (some U) none now).2.entries k =
        lookupEntry store.entries k) ∧
    (update_entry store (some S) (some U) none now).2.metadata.count =
      store.metadata.count ∧
    (update_entry store (some S) (some U) none now).2.metadata.version =
      store.metadata.version ∧
    (update_entry store (some S) (some U) none now).2.metadata.created_at =
      store.metadata.created_at ∧
    (update_entry store (some S) (some U) none now).2.metadata.updated_at = now := by
  have hk : containsKey store.entries (normalize_site S) = true := by
    show (lookupEntry store.entries (normalize_site S)).isSome = true
    rw [hfound]; rfl
  have hres : update_entry store (some S) (some U) none now =
      (none, ⟨{ store.metadata with updated_at := now },
        modifyEntry (modifyEntry store.entries (normalize_site S) (fun x => { x with username := U })) (normalize_site S) (fun x => { x with last_updated := now })⟩) := by
    simp only [update_entry, update_apply_password]
    rw [if_neg (show ¬((some U : Option String) = none ∧ True) by simp)]
    rw [if_pos hk, if_neg hU]
  refine ⟨by rw [hres], ?_, ?_, by rw [hres], by rw [hres], by rw [hres], by rw [hres]⟩
  · rw [hres]
    show lookupEntry (modifyEntry (modifyEntry store.entries (normalize_site S)
      (fun x => { x with username := U })) (normalize_site S)
      (fun x => { x with last_updated := now })) (normalize_site S) = _
    rw [lookupEntry_modifyEntry_self, lookupEntry_modifyEntry_self, hfound]
    rfl
  · intro k hkne
    rw [hres]
    show lookupEntry (modifyEntry (modifyEntry store.entries (normalize_site S)
      (fun x => { x with username := U })) (normalize_site S)
      (fun x => { x with last_updated := now })) k = _
    rw [lookupEntry_modifyEntry_ne _ _ _ _ hkne, lookupEntry_modifyEntry_ne _ _ _ _ hkne]

/-- Witness for C7 at a concrete store: the password survives a
username-only update. -/
theorem update_username_frame_witness :
    lookupEntry (update_entry exStore1 (some "s.com") (some "bob") none "t9").2.entries
      (normalize_site "s.com") = some ⟨"bob", "p1", "t9"⟩ :=
  (update_username_frame exStore1 "s.com" "bob" "t9" ⟨"u1", "p1", "t0"⟩
    (by decide) (by decide)).2.1

/-- Claim C8: `search` returns the empty sequence for an empty or absent
keyword; otherwise it returns, lexicographically sorted and without
duplicates (given the keys of the document are distinct), exactly the site
keys of entries where the lowercased keyword occurs as a substring of the
lowercased site key or of the lowercased username. -/
theorem search_entries_contract (store : Store) (kw : String) (hkw : kw ≠ "")
    (hkeys : (store.entries.map Prod.fst).Nodup) :
    search_entries store none = [] ∧
    search_entries store (some "") = [] ∧
    (search_entries store (some kw)).Sorted (fun a b => a ≤ b) ∧
    (search_entries store (some kw)).Nodup ∧
    (∀ s, s ∈ search_entries store (some kw) ↔
      ∃ r, (s, r) ∈ store.entries ∧
        ((pyLower kw).data <:+: (pyLower s).data ∨
         (pyLower kw).data <:+: (pyLower r.username).data)) := by
  have hsearch : search_entries store (some kw) =
      List.insertionSort (fun a b => a ≤ b)
        ((store.entries.filter (fun p => pyIn (pyLower kw).data (pyLower p.1).data ||
          pyIn (pyLower kw).data (pyLower p.2.username).data)).map Prod.fst) := by
    simp only [search_entries]
    rw [if_neg hkw]
  refine ⟨rfl, by simp [search_entries], ?_, ?_, ?_⟩
  · rw [hsearch]
    exact List.sorted_insertionSort _ _
  · rw [hsearch]
    have hsub : (((store.entries.filter (fun p => pyIn (pyLower kw).data (pyLower p.1).data ||
        pyIn (pyLower kw).data (pyLower p.2.username).data)).map Prod.fst)).Sublist
        (store.entries.map Prod.fst) :=
      List.Sublist.map _ (List.filter_sublist _)
    exact (List.perm_insertionSort _ _).symm.nodup (hsub.nodup hkeys)
  · intro s
    rw [hsearch, (List.perm_insertionSort _ _).mem_iff]
    constructor
    · intro hs
      obtain ⟨q, hq, hqs⟩ := List.mem_map.mp hs
      obtain ⟨hql, hcond⟩ := List.mem_filter.mp hq
      refine ⟨q.2, ?_, ?_⟩
      · rw [← hqs]
        simpa using hql
      · rw [Bool.or_eq_true] at hcond
        rw [← hqs]
        rcases hcond with h1 | h2
        · exact Or.inl ((pyIn_eq_true_iff _ _).mp h1)
        · exact Or.inr ((pyIn_eq_true_iff _ _).mp h2)
    · rintro ⟨r, hmem, hcond⟩
      apply List.mem_map.mpr
      refine ⟨(s, r), List.mem_filter.mpr ⟨hmem, ?_⟩, rfl⟩
      rw [Bool.or_eq_true]
      rcases hcond with h1 | h2
      · exact Or.inl ((pyIn_eq_true_iff _ _).mpr h1)
      · exact Or.inr ((pyIn_eq_true_iff _ _).mpr h2)

/-- Witness for C8: "github.com" is found when searching for "git" in the
documentation's example store. -/
theorem search_entries_contract_witness :
    "github.com" ∈ search_entries exStore2 (some "git") :=
  ((search_entries_contract exStore2 "git" (by decide) (by decide)).2.2.2.2
    "github.com").mpr ⟨⟨"al", "p", "t1"⟩, by decide,
      Or.inl ((pyIn_eq_true_iff _ _).mp (by decide))⟩

/-- Claim C9: `stats` on the empty store returns count 0, no oldest or
newest timestamp and average password length 0; on every non-empty store
it returns the number of entries, the lexicographic minimum and maximum
of the `last_updated` strings, and the arithmetic mean of the password
lengths. -/
theorem stats_contract (store : Store) :
    (store.entries = [] → stats store = ⟨0, none, none, 0⟩) ∧
    (store.entries ≠ [] →
      (stats store).count = store.entries.length ∧
      (∃ o, (stats store).oldest = some o ∧
        o ∈ store.entries.map (fun p => p.2.last_updated) ∧
        ∀ t ∈ store.entries.map (fun p => p.2.last_updated), o ≤ t) ∧
      (∃ n, (stats store).newest = some n ∧
        n ∈ store.entries.map (fun p => p.2.last_updated) ∧
        ∀ t ∈ store.entries.map (fun p => p.2.last_updated), t ≤ n) ∧
      (stats store).avg_password_length =
        (store.entries.map (fun p => (p.2.password.length : ℚ))).sum /
          (store.entries.length : ℚ)) := by
  constructor
  · intro h
    simp [stats, h]
  · intro hne
    have hlen : ¬(store.entries.length = 0) :=
      fun h => hne (List.length_eq_zero.mp h)
    have hstats : stats store =
        ⟨store.entries.length,
          listMin (store.entries.map (fun p => p.2.last_updated)),
          listMax (store.entries.map (fun p => p.2.last_updated)),
          (((store.entries.map (fun p => p.2.password.length)).sum : Nat) : ℚ) /
            (((store.entries.map (fun p => p.2.password.length)).length : Nat) : ℚ)⟩ := by
      simp only [stats]
      rw [if_neg hlen]
    cases htimes : store.entries.map (fun p => p.2.last_updated) with
    | nil =>
      exact absurd (List.map_eq_nil_iff.mp htimes) hne
    | cons a as =>
      refine ⟨by rw [hstats], ?_, ?_, ?_⟩
      · refine ⟨as.foldl min a, ?_, ?_, ?_⟩
        · rw [hstats, htimes]; rfl
        · exact foldl_min_mem as a
        · exact foldl_min_le as a
      · refine ⟨as.foldl max a, ?_, ?_, ?_⟩
        · rw [hstats, htimes]; rfl
        · exact foldl_max_mem as a
        · exact le_foldl_max as a
      · rw [hstats]
        show (((store.entries.map (fun p => p.2.password.length)).sum : Nat) : ℚ) /
            (((store.entries.map (fun p => p.2.password.length)).length : Nat) : ℚ) = _
        rw [List.length_map, Nat.cast_list_sum, List.map_map]
        rfl

/-- Witness for C9 at the concrete two-entry store. -/
theorem stats_contract_witness : (stats exStore2).count = exStore2.entries.length :=
  ((stats_contract exStore2).2 (by decide)).1

/-- Claim C10: `add` rejects only an absent (None) site; a site consisting
only of whitespace (including the empty string) normalizes to the empty
key "", and for non-empty credentials on a store without that key, add
succeeds and inserts the record under the key "". -/
theorem add_whitespace_site_inserts_empty_key (store : Store) (S u p now : String)
    (hws : ∀ c ∈ S.data, c.isWhitespace = true)
    (hu : u ≠ "") (hp : p ≠ "")
    (habs : containsKey store.entries "" = false) :
    (add_entry store (some S) u p now).1 = none ∧
    lookupEntry (add_entry store (some S) u p now).2.entries "" = some ⟨u, p, now⟩ ∧
    (∀ (u2 p2 : String), (add_entry store none u2 p2 now).1 =
      some (.validationError "add: site is required.")) := by
  have hkey : normalize_site S = "" := normalize_site_eq_empty_of_whitespace S hws
  have hep : ¬(u = "" ∨ p = "") := by simp [hu, hp]
  have hkf : ¬(containsKey store.entries (normalize_site S) = true) := by
    rw [hkey, habs]; simp
  have hres : add_entry store (some S) u p now =
      (none, ⟨{ store.metadata with count := ((store.entries ++ [(normalize_site S, Record.mk u p now)]).length : Int), updated_at := now }, store.entries ++ [(normalize_site S, Record.mk u p now)]⟩) := by
    simp only [add_entry]
    rw [if_neg hep, if_neg hkf]
  refine ⟨by rw [hres], ?_, fun u2 p2 => rfl⟩
  rw [hres]
  show lookupEntry (store.entries ++ [(normalize_site S, Record.mk u p now)]) "" = _
  rw [hkey]
  exact lookupEntry_append_self _ _ _ habs

/-- Witness for C10: adding under a site of three spaces inserts the
record under the empty key. -/
theorem add_whitespace_site_inserts_empty_key_witness :
    lookupEntry (add_entry exStore0 (some "   ") "u" "p" "t1").2.entries "" =
      some ⟨"u", "p", "t1"⟩ :=
  (add_whitespace_site_inserts_empty_key exStore0 "   " "u" "p" "t1"
    (by decide) (by decide) (by decide) (by decide)).2.1

end Passman
